import Mathlib

/-!
Shallow embedding of `python/lsst/meas/extensions/astrometryNet/multiindex.py`:
the astrometry.net multi-index cache subsystem (`MultiIndexCache`,
`AstrometryNetCatalog`, `generateCache`).

Python state mutation is modelled by explicit state passing; an operation that
can raise returns the raised error (if any) together with the post-state, since
Python leaves partial mutations visible to the caller.  Logging is a no-op and
is dropped from the model.  The native astrometry.net bindings (`MultiIndex`,
`healpixDistance`), the path utilities (`os.path`, `lsst.utils.getPackageDir`)
and the filesystem are not part of this repository's Python sources; they are
abstracted into an `Env` record, modelled from the spec.
-/

namespace AstrometryNet

/-- Errors raised by the subsystem, following the spec's taxonomy (§7):
`insufficientFilenames` = ConfigurationError, `missingPrimary` = MissingFileError,
`parseFailed` = LoadError, `inconsistentIndex` = InconsistentIndexError,
`cacheConsistency` = CacheConsistencyError; `emptyMax` and `nullFilename` are the
ValueError/TypeError raised by `max()` in `writeCache`; `cacheKeyError` is the
KeyError raised by the join dict in `_initFromCache`; `typeError` is the
TypeError from resolving a null primary filename; `nullDeref` models an
attribute access on a null native handle. -/
inductive Err where
  | insufficientFilenames
  | missingPrimary
  | parseFailed
  | inconsistentIndex
  | cacheConsistency
  | cacheKeyError
  | emptyMax
  | nullFilename
  | typeError
  | nullDeref
  deriving DecidableEq, Repr

/-- Modelled from the spec: per-part diagnostic metadata exposed by a loaded
native index part (id, healpix, nside, star count, quad count); the native
`index_t` is not under the Python sources. -/
structure IndexPart where
  indexid : Int
  healpix : Int
  hpnside : Int
  nstars : Int
  nquads : Int
  deriving DecidableEq, Repr

/-- Modelled from the spec: the native `multiindex_t` wrapper (`MultiIndex`),
which is not under the Python sources.  It holds the ordered list of attached
index parts; `addIndex` appends a part. -/
structure MI where
  parts : List IndexPart
  deriving DecidableEq, Repr

/-- Append an index part to the native structure (`MultiIndex.addIndex`). -/
def MI.addPart (m : MI) (p : IndexPart) : MI :=
  { parts := m.parts ++ [p] }

/-- An ICRS sky coordinate (`lsst.afw.geom.SpherePoint`), abstracted to a pair
of rational angles. -/
structure SpherePoint where
  ra : Rat
  dec : Rat
  deriving DecidableEq, Repr

/-- Modelled from the spec: the external collaborators of `multiindex.py` that
are not under the Python sources — the filesystem, the path utilities behind
`getIndexPath` (`os.path.isabs`, `lsst.utils.getPackageDir`, `os.path.join`,
`os.path.abspath`), and the native astrometry.net calls (`MultiIndex(fn)`,
`addIndex` metadata, `multiindex_t.reload`/`unload`, `healpixDistance`). -/
structure Env where
  /-- `os.path.isabs fn` -/
  isAbs : String → Bool
  /-- the `astrometry_net_data` package directory, `none` when not set up -/
  packageDir : Option String
  /-- `os.path.abspath fn` relative to the current working directory -/
  cwdAbs : String → String
  /-- `os.path.join dir fn` -/
  join : String → String → String
  /-- `os.path.exists fn` -/
  pathExists : String → Bool
  /-- `MultiIndex(fn)`: `none` models the constructor returning None -/
  parseMulti : String → Option MI
  /-- metadata of the index part loaded by `addIndex fn` -/
  partMeta : String → IndexPart
  /-- native `multiindex_t.reload` (lightweight refresh, spec §4.2) -/
  miReload : MI → MI
  /-- native `multiindex_t.unload` (releases heavy payload, spec §4.2) -/
  miUnload : MI → MI
  /-- native `healpixDistance(healpix, nside, coord)` as a rational angle -/
  hdist : Int → Int → SpherePoint → Rat

/-- Embedding of `getIndexPath(fn)`: absolute paths unchanged; otherwise join
with the `astrometry_net_data` directory when set up, else resolve relative to
the current working directory. -/
def getIndexPath (env : Env) (fn : String) : String :=
  if env.isAbs fn then fn
  else
    match env.packageDir with
    | none => env.cwdAbs fn
    | some andir => env.join andir fn

/-- State of a `MultiIndexCache` object: the declared filename list (entries
may be null), the healpix/nside metadata, the lazily populated native handle
(`_mi`) and the `_loaded` flag. -/
structure MultiIndexCache where
  filenameList : List (Option String)
  healpix : Int
  nside : Int
  mi : Option MI
  loaded : Bool
  deriving DecidableEq, Repr

/-- The part-attachment loop of `MultiIndexCache.read`: walk the non-primary
filenames in order, skipping null entries and entries whose resolved path does
not exist, attaching each remaining one as an index part. -/
def attachParts (env : Env) (m : MI) (rest : List (Option String)) : MI :=
  rest.foldl (fun acc ofn =>
    match ofn with
    | none => acc
    | some f =>
      let p := getIndexPath env f
      if env.pathExists p then acc.addPart (env.partMeta p) else acc) m

/-- The metadata of the parts that the attachment loop actually attaches: the
non-null entries whose resolved path exists, in order. -/
def attachedMeta (env : Env) (rest : List (Option String)) : List IndexPart :=
  rest.filterMap (fun ofn =>
    match ofn with
    | none => none
    | some f =>
      let p := getIndexPath env f
      if env.pathExists p then some (env.partMeta p) else none)

namespace MultiIndexCache

/-- Embedding of `MultiIndexCache.__init__`: raises unless the filename list
has at least two entries; starts with a null native handle, not loaded. -/
def make (filenameList : List (Option String)) (healpix nside : Int) :
    Except Err MultiIndexCache :=
  if filenameList.length < 2 then .error .insufficientFilenames
  else .ok { filenameList := filenameList, healpix := healpix, nside := nside,
             mi := none, loaded := false }

/-- Embedding of `MultiIndexCache.read`: no-op when the native handle already
exists; resolves and parses the primary filename (fatal on a missing or
unparseable primary); then walks the remaining filenames in order, skipping
null entries and entries whose resolved path does not exist, attaching each
remaining one as an index part.  The per-part debug logging (which indexes the
native structure) is dropped: it is modelled from the spec as pure
diagnostics with no effect on state. -/
def read (env : Env) (s : MultiIndexCache) : Option Err × MultiIndexCache :=
  match s.mi with
  | some _ => (none, s)
  | none =>
    match s.filenameList with
    | [] => (some .typeError, s)
    | fn0 :: rest =>
      match fn0 with
      | none => (some .typeError, s)
      | some f0 =>
        if ¬ env.pathExists (getIndexPath env f0) then (some .missingPrimary, s)
        else
          match env.parseMulti (getIndexPath env f0) with
          | none => (some .parseFailed, { s with mi := none })
          | some m => (none, { s with mi := some (attachParts env m rest) })

/-- Embedding of `MultiIndexCache.reload`: no-op when `_loaded`; delegates to
`read` when the native handle is null, else refreshes it natively; sets
`_loaded` on success. -/
def reload (env : Env) (s : MultiIndexCache) : Option Err × MultiIndexCache :=
  if s.loaded then (none, s)
  else
    match s.mi with
    | none =>
      match read env s with
      | (some e, s2) => (some e, s2)
      | (none, s2) => (none, { s2 with loaded := true })
    | some m => (none, { s with mi := some (env.miReload m), loaded := true })

/-- Embedding of `MultiIndexCache.unload`: no-op when not `_loaded`; otherwise
calls the native unload (an attribute access on `_mi`, which would raise on a
null handle) and clears `_loaded`. -/
def unload (env : Env) (s : MultiIndexCache) : Option Err × MultiIndexCache :=
  if ¬ s.loaded then (none, s)
  else
    match s.mi with
    | none => (some .nullDeref, s)
    | some m => (none, { s with mi := some (env.miUnload m), loaded := false })

/-- Embedding of `MultiIndexCache.isWithinRange`: true when the healpix
sentinel is -1, else true iff the healpix distance is at most `distance`. -/
def isWithinRange (env : Env) (s : MultiIndexCache) (coord : SpherePoint)
    (distance : Rat) : Bool :=
  s.healpix == -1 || decide (env.hdist s.healpix s.nside coord ≤ distance)

/-- Embedding of `MultiIndexCache.__len__`: the number of declared filenames
minus one (the primary); a pure function of the filename list, touching
neither the filesystem nor the load state. -/
def len (s : MultiIndexCache) : Nat :=
  s.filenameList.length - 1

/-- The index parts of a handle's loaded native structure (empty when the
native handle is null). -/
def partsOf (s : MultiIndexCache) : List IndexPart :=
  match s.mi with
  | some m => m.parts
  | none => []

/-- The healpix/nside-discovery stage of `fromFilenameList`: collect the
healpix and nside values reported by the loaded index parts as sets, assert
each set is a singleton, and adopt the unique values.  The part metadata
comes from the loaded native structure (spec §4.2: reads back every part's
reported healpix/nside, asserting uniqueness). -/
def adoptMeta (s2 : MultiIndexCache) : Except Err MultiIndexCache :=
  match ((partsOf s2).map (fun p => p.healpix)).dedup,
        ((partsOf s2).map (fun p => p.hpnside)).dedup with
  | [hp], [ns] => .ok { s2 with healpix := hp, nside := ns }
  | _, _ => .error .inconsistentIndex

/-- The reload stage of `fromFilenameList`: force a full `reload`, then
discover healpix/nside from the loaded parts. -/
def afterReload (env : Env) (s : MultiIndexCache) : Except Err MultiIndexCache :=
  match reload env s with
  | (some e, _) => .error e
  | (none, s2) => adoptMeta s2

/-- Embedding of `MultiIndexCache.fromFilenameList`: construct with
placeholder healpix/nside 0, force a `reload`, and adopt the unique
healpix/nside reported by the loaded parts. -/
def fromFilenameList (env : Env) (fnList : List (Option String)) :
    Except Err MultiIndexCache :=
  match make fnList 0 0 with
  | .error e => .error e
  | .ok s => afterReload env s

end MultiIndexCache

/-- The configuration consumed by the registry (`AstrometryNetDataConfig`,
spec §6): single-index filenames, grouped multi-index filename lists (entries
may be null), and the cache-allow flag. -/
structure AstrometryNetDataConfig where
  indexFiles : List String
  multiIndexFiles : List (List (Option String))
  allowCache : Bool
  deriving DecidableEq, Repr

/-- The declared filename collection of a configuration, as flattened in
`_initFromCache`: `sum(self.config.multiIndexFiles, []) + self.config.indexFiles`. -/
def declaredFiles (cfg : AstrometryNetDataConfig) : List (Option String) :=
  cfg.multiIndexFiles.flatten ++ cfg.indexFiles.map some

/-- In-memory contents of the cache file written by `writeCache` (spec §6):
a handle table with one `(id, healpix, nside)` row per handle, and a filename
table with one `(id, filename)` row per filename across all handles.  The FITS
serialization by astropy is modelled as lossless storage of these two tables,
per the spec's cache-file format. -/
structure CacheFile where
  first : List (Nat × Int × Int)
  second : List (Nat × String)
  deriving DecidableEq, Repr

/-- The handle-table rows of `writeCache`: row `j` carries handle `j`'s
healpix and nside, ids counting up from `j0`. -/
def firstRows (j0 : Nat) : List MultiIndexCache → List (Nat × Int × Int)
  | [] => []
  | h :: t => (j0, h.healpix, h.nside) :: firstRows (j0 + 1) t

/-- The filename-table rows contributed by one handle with id `j`: one row per
filename in its list, in order.  In `writeCache` every entry is a string (a
null entry would already have raised in the `max()` scan), so null entries
contribute nothing here. -/
def rowsOf (j : Nat) (h : MultiIndexCache) : List (Nat × String) :=
  h.filenameList.filterMap (fun ofn => ofn.map (fun fn => (j, fn)))

/-- The filename-table rows of `writeCache`: handle blocks in registry order,
ids counting up from `j0`. -/
def secondRows (j0 : Nat) : List MultiIndexCache → List (Nat × String)
  | [] => []
  | h :: t => rowsOf j0 h ++ secondRows (j0 + 1) t

/-- All filenames declared by a registry's handles, flattened in registry
order (the iteration order of `writeCache`). -/
def allFilenames (hs : List MultiIndexCache) : List (Option String) :=
  hs.flatMap (fun h => h.filenameList)

/-- Embedding of `AstrometryNetCatalog.writeCache`: computing the maximum
filename length raises ValueError when the registry declares no filenames at
all and TypeError when some declared filename is null; otherwise the two
tables are written, ids being the zero-based registry indices. -/
def writeCache (hs : List MultiIndexCache) : Except Err CacheFile :=
  if allFilenames hs = [] then .error .emptyMax
  else if (allFilenames hs).any (fun ofn => ofn.isNone) then .error .nullFilename
  else .ok { first := firstRows 0 hs, second := secondRows 0 hs }

/-- The handle-construction loop of `_initFromCache`: one `MultiIndexCache`
per handle-table row, its filename list being the filename-table rows with a
matching id in table order (the JOIN through the dict of lists); the first
constructor failure aborts the whole construction. -/
def buildHandles (second : List (Nat × String)) :
    List (Nat × Int × Int) → Except Err (List MultiIndexCache)
  | [] => .ok []
  | (j, hp, ns) :: t =>
    match MultiIndexCache.make
        ((second.filter (fun q => q.1 == j)).map (fun q => some q.2)) hp ns,
      buildHandles second t with
    | .error e, _ => .error e
    | .ok _, .error e => .error e
    | .ok h, .ok hs => .ok (h :: hs)

/-- Embedding of `AstrometryNetCatalog._initFromCache`: the join dict is keyed
by the handle-table ids, so a filename-table row whose id is not among them
raises KeyError; then one handle is constructed per handle-table row; finally
the set of cache filenames must equal the set of configuration-declared
filenames (`assert cacheFiles == configFiles`), else the construction raises. -/
def initFromCache (cache : CacheFile) (cfg : AstrometryNetDataConfig) :
    Except Err (List MultiIndexCache) :=
  if ∃ q ∈ cache.second, q.1 ∉ cache.first.map (fun r => r.1) then
    .error .cacheKeyError
  else
    match buildHandles cache.second cache.first with
    | .error e => .error e
    | .ok hs =>
      if (cache.second.map (fun q => some q.2)).toFinset =
          (declaredFiles cfg).toFinset then .ok hs
      else .error .cacheConsistency

/-- The handle-construction loop of `_initFromIndexFiles`: one handle per
filename list via `fromFilenameList`, in order; the first failure aborts the
whole construction. -/
def buildFromLists (env : Env) :
    List (List (Option String)) → Except Err (List MultiIndexCache)
  | [] => .ok []
  | l :: t =>
    match MultiIndexCache.fromFilenameList env l, buildFromLists env t with
    | .error e, _ => .error e
    | .ok _, .error e => .error e
    | .ok h, .ok hs => .ok (h :: hs)

/-- Embedding of `AstrometryNetCatalog._initFromIndexFiles`: the self-paired
single-index filename lists followed by the multi-index groups, one handle per
list via `fromFilenameList`, in the configuration's declared order. -/
def initFromIndexFiles (env : Env) (cfg : AstrometryNetDataConfig) :
    Except Err (List MultiIndexCache) :=
  buildFromLists env (cfg.indexFiles.map (fun f => [some f, some f]) ++ cfg.multiIndexFiles)

/-- The `for index in catalog: index.reload()` loop of `generateCache`: the
first raising reload aborts the loop, leaving the already-reloaded prefix and
the untouched suffix visible. -/
def reloadAll (env : Env) : List MultiIndexCache →
    Option Err × List MultiIndexCache
  | [] => (none, [])
  | h :: t =>
    match MultiIndexCache.reload env h with
    | (some e, h2) => (some e, h2 :: t)
    | (none, h2) =>
      let (e, t2) := reloadAll env t
      (e, h2 :: t2)

/-- The `for index in catalog: index.unload()` loop of `generateCache`'s
`finally` block: the first raising unload aborts the loop. -/
def unloadAll (env : Env) : List MultiIndexCache →
    Option Err × List MultiIndexCache
  | [] => (none, [])
  | h :: t =>
    match MultiIndexCache.unload env h with
    | (some e, h2) => (some e, h2 :: t)
    | (none, h2) =>
      let (e, t2) := unloadAll env t
      (e, h2 :: t2)

/-- The error (if any) raised by the `try` block of `generateCache`: a
failing reload, else a failing cache write on the reloaded handles. -/
def tryBlockErr (env : Env) (hs : List MultiIndexCache) : Option Err :=
  match (reloadAll env hs).1 with
  | some e => some e
  | none =>
    match writeCache (reloadAll env hs).2 with
    | .ok _ => none
    | .error e => some e

/-- Embedding of the body of `generateCache`, applied to the handles of the
constructed catalog: `try` reloads every handle and writes the cache;
`finally` unloads every handle, whether the `try` block succeeded or raised;
an error raised in the `finally` block supersedes the `try` block's error. -/
def generateCacheRun (env : Env) (hs : List MultiIndexCache) :
    Option Err × List MultiIndexCache :=
  (match (unloadAll env (reloadAll env hs).2).1 with
   | some e => some e
   | none => tryBlockErr env hs,
   (unloadAll env (reloadAll env hs).2).2)

/-- The public lifecycle calls of a `MultiIndexCache`. -/
inductive Op where
  | readOp
  | reloadOp
  | unloadOp
  deriving DecidableEq, Repr

/-- One lifecycle call on a handle's state. -/
def stepOp (env : Env) (op : Op) (s : MultiIndexCache) :
    Option Err × MultiIndexCache :=
  match op with
  | .readOp => MultiIndexCache.read env s
  | .reloadOp => MultiIndexCache.reload env s
  | .unloadOp => MultiIndexCache.unload env s

/-- Run a sequence of lifecycle calls, keeping the post-state of each call
(also of a raising one, as Python does). -/
def runOps (env : Env) : List Op → MultiIndexCache → MultiIndexCache
  | [], s => s
  | op :: t, s => runOps env t (stepOp env op s).2

/-- The load-state invariant: a loaded handle holds a non-null native
structure. -/
def LoadInv (s : MultiIndexCache) : Prop :=
  s.loaded = true → s.mi.isSome = true

/-! Concrete test fixtures used by the witness theorems. -/

/-- A concrete environment: every path is absolute and exists except
`missing`, every primary parses to an empty native structure, every attached
part reports healpix 5 at nside 4, and every healpix distance is 1. -/
def envT : Env :=
  { isAbs := fun _ => true
    packageDir := none
    cwdAbs := fun f => f
    join := fun d f => d ++ "/" ++ f
    pathExists := fun f => !(f == "missing")
    parseMulti := fun _ => some { parts := [] }
    partMeta := fun _ => { indexid := 1, healpix := 5, hpnside := 4, nstars := 10, nquads := 20 }
    miReload := fun m => m
    miUnload := fun m => m
    hdist := fun _ _ _ => 1 }

/-- A freshly constructed handle with the whole-sky sentinel healpix -1. -/
def hSentinel : MultiIndexCache :=
  { filenameList := [some "a", some "a"], healpix := -1, nside := 0,
    mi := none, loaded := false }

/-- A freshly constructed handle with a concrete healpix cell. -/
def hPix : MultiIndexCache :=
  { filenameList := [some "a", some "a"], healpix := 5, nside := 4,
    mi := none, loaded := false }

/-- A freshly constructed handle with a null part entry and a part entry
naming a nonexistent path. -/
def hParts : MultiIndexCache :=
  { filenameList := [some "p", none, some "missing"], healpix := 0, nside := 0,
    mi := none, loaded := false }

/-- The state of `hSentinel` after a successful `reload` under `envT`. -/
def hSentinelLoaded : MultiIndexCache :=
  { filenameList := [some "a", some "a"], healpix := -1, nside := 0,
    mi := some { parts := [{ indexid := 1, healpix := 5, hpnside := 4,
                             nstars := 10, nquads := 20 }] },
    loaded := true }

/-! Helper lemmas about the handle lifecycle. -/

/-- The attachment loop appends exactly the attachable parts' metadata. -/
theorem attachParts_parts (env : Env) (rest : List (Option String)) :
    ∀ m : MI, (attachParts env m rest).parts = m.parts ++ attachedMeta env rest := by
  induction rest with
  | nil => intro m; simp [attachParts, attachedMeta]
  | cons hd tl ih =>
    intro m
    cases hd with
    | none =>
      have h1 : attachParts env m (none :: tl) = attachParts env m tl := rfl
      have h2 : attachedMeta env (none :: tl) = attachedMeta env tl := rfl
      rw [h1, h2, ih]
    | some f =>
      by_cases hp : env.pathExists (getIndexPath env f) = true
      · have h1 : attachParts env m (some f :: tl) =
            attachParts env (m.addPart (env.partMeta (getIndexPath env f))) tl := by
          unfold attachParts
          simp [hp]
        have h2 : attachedMeta env (some f :: tl) =
            env.partMeta (getIndexPath env f) :: attachedMeta env tl := by
          unfold attachedMeta
          simp [List.filterMap_cons, hp]
        rw [h1, h2, ih, MI.addPart]
        simp
      · have hp2 : env.pathExists (getIndexPath env f) = false := by
          simpa using hp
        have h1 : attachParts env m (some f :: tl) = attachParts env m tl := by
          unfold attachParts
          simp [hp2]
        have h2 : attachedMeta env (some f :: tl) = attachedMeta env tl := by
          unfold attachedMeta
          simp [List.filterMap_cons, hp2]
        rw [h1, h2, ih]

/-- Reloading an already-loaded handle returns immediately, unchanged. -/
theorem reload_noop_of_loaded (env : Env) (t : MultiIndexCache)
    (ht : t.loaded = true) : MultiIndexCache.reload env t = (none, t) := by
  simp [MultiIndexCache.reload, ht]

/-- A successful reload leaves the handle loaded. -/
theorem reload_ok_loaded (env : Env) (s s2 : MultiIndexCache)
    (h : MultiIndexCache.reload env s = (none, s2)) : s2.loaded = true := by
  unfold MultiIndexCache.reload at h
  split at h
  · injection h with h1 h2
    subst h2
    assumption
  · split at h
    · split at h
      · simp at h
      · injection h with h1 h2
        subst h2
        rfl
    · injection h with h1 h2
      subst h2
      rfl

/-- A handle whose loaded flag is down satisfies the load-state invariant. -/
theorem loadInv_of_not_loaded {s : MultiIndexCache} (h : s.loaded = false) :
    LoadInv s := by
  intro hl
  rw [hl] at h
  cases h

/-- A handle whose native structure is populated satisfies the invariant. -/
theorem loadInv_of_some {s : MultiIndexCache} (h : s.mi.isSome = true) :
    LoadInv s :=
  fun _ => h

/-- Under the invariant a null native handle means the flag is down. -/
theorem loaded_false_of_none {s : MultiIndexCache} (hInv : LoadInv s)
    (h : s.mi = none) : s.loaded = false := by
  cases hb : s.loaded with
  | false => rfl
  | true =>
    have h2 := hInv hb
    rw [h] at h2
    simp at h2

/-- Behaviour of `read` on a handle whose native structure already exists:
return immediately, unchanged. -/
theorem read_of_some (env : Env) (s : MultiIndexCache) (m : MI)
    (hmi : s.mi = some m) : MultiIndexCache.read env s = (none, s) := by
  unfold MultiIndexCache.read
  rw [hmi]

/-- The `read` path never touches the loaded flag. -/
theorem read_snd_loaded (env : Env) (s : MultiIndexCache) :
    (MultiIndexCache.read env s).2.loaded = s.loaded := by
  unfold MultiIndexCache.read
  repeat' split
  all_goals rfl

/-- A read that succeeds from a null native handle populates it. -/
theorem read_ok_some (env : Env) (s s3 : MultiIndexCache) (hmi : s.mi = none)
    (h : MultiIndexCache.read env s = (none, s3)) : s3.mi.isSome = true := by
  unfold MultiIndexCache.read at h
  rw [hmi] at h
  split at h
  · contradiction
  · split at h
    · simp at h
    · split at h
      · simp at h
      · split at h
        · simp at h
        · split at h
          · simp at h
          · injection h with h1 h2
            subst h2
            simp

/-- Lifecycle step: `read` preserves the load-state invariant. -/
theorem read_preserves_inv (env : Env) (s : MultiIndexCache) (h : LoadInv s) :
    LoadInv (MultiIndexCache.read env s).2 := by
  intro hl
  have hsl : s.loaded = true := by
    rw [← read_snd_loaded env s]
    exact hl
  obtain ⟨m, hm⟩ := Option.isSome_iff_exists.mp (h hsl)
  rw [read_of_some env s m hm]
  simpa using h hsl

/-- Behaviour of `reload` on an unloaded handle with a null native structure:
delegate to `read`, raising the flag on success. -/
theorem reload_of_none (env : Env) (s : MultiIndexCache)
    (hl : s.loaded = false) (hmi : s.mi = none) :
    MultiIndexCache.reload env s =
      match MultiIndexCache.read env s with
      | (some e, s2) => (some e, s2)
      | (none, s2) => (none, { s2 with loaded := true }) := by
  unfold MultiIndexCache.reload
  rw [if_neg (by simp [hl]), hmi]

/-- Behaviour of `reload` on an unloaded handle with an existing native
structure: refresh natively and raise the flag. -/
theorem reload_of_some (env : Env) (s : MultiIndexCache) (m : MI)
    (hl : s.loaded = false) (hmi : s.mi = some m) :
    MultiIndexCache.reload env s =
      (none, { s with mi := some (env.miReload m), loaded := true }) := by
  unfold MultiIndexCache.reload
  rw [if_neg (by simp [hl]), hmi]

/-- Lifecycle step: `reload` preserves the load-state invariant. -/
theorem reload_preserves_inv (env : Env) (s : MultiIndexCache) (h : LoadInv s) :
    LoadInv (MultiIndexCache.reload env s).2 := by
  cases hb : s.loaded with
  | true =>
    rw [reload_noop_of_loaded env s hb]
    exact h
  | false =>
    cases hmi : s.mi with
    | some m =>
      rw [reload_of_some env s m hb hmi]
      exact loadInv_of_some rfl
    | none =>
      rw [reload_of_none env s hb hmi]
      cases hr : MultiIndexCache.read env s with
      | mk e s3 =>
        cases e with
        | some err =>
          show LoadInv s3
          have h2 := read_preserves_inv env s h
          rw [hr] at h2
          exact h2
        | none =>
          show LoadInv { s3 with loaded := true }
          exact loadInv_of_some (by simpa using read_ok_some env s s3 hmi hr)

/-- Behaviour of `unload` on an unloaded handle: return immediately. -/
theorem unload_noop_of_not_loaded (env : Env) (s : MultiIndexCache)
    (hl : s.loaded = false) : MultiIndexCache.unload env s = (none, s) := by
  unfold MultiIndexCache.unload
  rw [if_pos (by simp [hl])]

/-- Behaviour of `unload` on a loaded handle with an existing native
structure: release natively and lower the flag. -/
theorem unload_of_loaded_some (env : Env) (s : MultiIndexCache) (m : MI)
    (hl : s.loaded = true) (hmi : s.mi = some m) :
    MultiIndexCache.unload env s =
      (none, { s with mi := some (env.miUnload m), loaded := false }) := by
  unfold MultiIndexCache.unload
  rw [if_neg (by simp [hl]), hmi]

/-- Lifecycle step: `unload` preserves the load-state invariant. -/
theorem unload_preserves_inv (env : Env) (s : MultiIndexCache) (h : LoadInv s) :
    LoadInv (MultiIndexCache.unload env s).2 := by
  cases hb : s.loaded with
  | false =>
    rw [unload_noop_of_not_loaded env s hb]
    exact h
  | true =>
    obtain ⟨m, hm⟩ := Option.isSome_iff_exists.mp (h hb)
    rw [unload_of_loaded_some env s m hb hm]
    exact loadInv_of_not_loaded rfl

/-- Every lifecycle call preserves the load-state invariant. -/
theorem stepOp_preserves_inv (env : Env) (op : Op) (s : MultiIndexCache)
    (h : LoadInv s) : LoadInv (stepOp env op s).2 := by
  cases op with
  | readOp => exact read_preserves_inv env s h
  | reloadOp => exact reload_preserves_inv env s h
  | unloadOp => exact unload_preserves_inv env s h

/-- Every sequence of lifecycle calls preserves the invariant. -/
theorem runOps_preserves_inv (env : Env) (ops : List Op) :
    ∀ s, LoadInv s → LoadInv (runOps env ops s) := by
  induction ops with
  | nil => intro s h; exact h
  | cons op t ih => intro s h; exact ih _ (stepOp_preserves_inv env op s h)

/-- Under the invariant, `unload` never raises. -/
theorem unload_fst_of_inv (env : Env) (s : MultiIndexCache) (h : LoadInv s) :
    (MultiIndexCache.unload env s).1 = none := by
  cases hb : s.loaded with
  | false => rw [unload_noop_of_not_loaded env s hb]
  | true =>
    obtain ⟨m, hm⟩ := Option.isSome_iff_exists.mp (h hb)
    rw [unload_of_loaded_some env s m hb hm]

/-! Claim theorems. -/

/-- C3: if `loaded` is already true then `reload()` is a no-op, and after any
successful `reload()` the handle is loaded and a second consecutive `reload()`
returns the state unchanged without re-running the read path (the state after
two calls equals the state after one). -/
theorem c3_reload_idempotent (env : Env) (s : MultiIndexCache) :
    (s.loaded = true → MultiIndexCache.reload env s = (none, s)) ∧
    ∀ s2, MultiIndexCache.reload env s = (none, s2) →
      s2.loaded = true ∧ MultiIndexCache.reload env s2 = (none, s2) :=
  ⟨fun h => reload_noop_of_loaded env s h, fun s2 h =>
    have h2 := reload_ok_loaded env s s2 h
    ⟨h2, reload_noop_of_loaded env s2 h2⟩⟩

/-- Witness for C3 at a concrete handle and environment. -/
theorem c3_witness :
    hSentinelLoaded.loaded = true ∧
    MultiIndexCache.reload envT hSentinelLoaded = (none, hSentinelLoaded) :=
  (c3_reload_idempotent envT hSentinel).2 hSentinelLoaded (by decide)

/-- C4: when the primary file resolves, exists and parses, `read()` succeeds
whatever the non-primary entries are; null entries and entries naming
nonexistent paths are skipped (the attached parts are exactly the non-null
entries whose resolved path exists, in order), and `len` — a pure function of
the declared filename list, defined without any load — still reports the
declared filename count minus one. -/
theorem c4_read_missing_part_tolerance (env : Env) (s : MultiIndexCache)
    (f0 : String) (rest : List (Option String)) (m : MI)
    (hfl : s.filenameList = some f0 :: rest)
    (hmi : s.mi = none)
    (hex : env.pathExists (getIndexPath env f0) = true)
    (hm : env.parseMulti (getIndexPath env f0) = some m) :
    ∃ m2 : MI,
      MultiIndexCache.read env s = (none, { s with mi := some m2 }) ∧
      m2.parts = m.parts ++ attachedMeta env rest ∧
      MultiIndexCache.len { s with mi := some m2 } = rest.length := by
  refine ⟨attachParts env m rest, ?_, attachParts_parts env rest m, ?_⟩
  · unfold MultiIndexCache.read
    rw [hmi, hfl]
    simp [hex, hm]
  · simp [MultiIndexCache.len, hfl]

/-- Witness for C4: a handle whose part entries are a null and a nonexistent
path; `read` succeeds, attaches nothing, and `len` reports 2. -/
theorem c4_witness :
    ∃ m2 : MI,
      MultiIndexCache.read envT hParts = (none, { hParts with mi := some m2 }) ∧
      m2.parts = MI.parts { parts := [] } ++ attachedMeta envT [none, some "missing"] ∧
      MultiIndexCache.len { hParts with mi := some m2 } = 2 :=
  c4_read_missing_part_tolerance envT hParts "p" [none, some "missing"]
    { parts := [] } rfl rfl (by decide) rfl

/-- C5: `isWithinRange` is true for the healpix sentinel -1 at every
coordinate, distance and environment (so the healpix distance never decides
the result there); for any other healpix it is true exactly when the healpix
distance is at most the given distance. -/
theorem c5_isWithinRange_sentinel (env : Env) (s : MultiIndexCache)
    (coord : SpherePoint) (d : Rat) :
    (s.healpix = -1 → MultiIndexCache.isWithinRange env s coord d = true) ∧
    (s.healpix ≠ -1 →
      (MultiIndexCache.isWithinRange env s coord d = true ↔
        env.hdist s.healpix s.nside coord ≤ d)) := by
  constructor
  · intro h
    simp [MultiIndexCache.isWithinRange, h]
  · intro h
    simp [MultiIndexCache.isWithinRange, h]

/-- Witness for C5: the sentinel handle passes at coordinate (0,0) and
distance 0; the healpix-5 handle (distance 1 under `envT`) reduces to the
distance comparison. -/
theorem c5_witness :
    MultiIndexCache.isWithinRange envT hSentinel ⟨0, 0⟩ 0 = true ∧
    (MultiIndexCache.isWithinRange envT hPix ⟨0, 0⟩ 0 = true ↔
      envT.hdist hPix.healpix hPix.nside ⟨0, 0⟩ ≤ 0) :=
  ⟨(c5_isWithinRange_sentinel envT hSentinel ⟨0, 0⟩ 0).1 rfl,
   (c5_isWithinRange_sentinel envT hPix ⟨0, 0⟩ 0).2 (by decide)⟩

/-- C8: from construction, any sequence of `read`/`reload`/`unload` calls
keeps the invariant that a loaded handle holds a non-null native structure;
`unload` on the never-loaded initial state is a safe no-op, and `unload` on
any reachable state never dereferences a null handle. -/
theorem c8_load_state_invariant (env : Env) (fnList : List (Option String))
    (hp ns : Int) (s0 : MultiIndexCache)
    (h0 : MultiIndexCache.make fnList hp ns = .ok s0) (ops : List Op) :
    LoadInv (runOps env ops s0) ∧
    MultiIndexCache.unload env s0 = (none, s0) ∧
    (MultiIndexCache.unload env (runOps env ops s0)).1 = none := by
  have hinit : s0.loaded = false ∧ s0.mi = none := by
    unfold MultiIndexCache.make at h0
    split at h0
    · cases h0
    · injection h0 with h1
      subst h1
      exact ⟨rfl, rfl⟩
  have inv0 : LoadInv s0 := loadInv_of_not_loaded hinit.1
  have hrun := runOps_preserves_inv env ops s0 inv0
  exact ⟨hrun, unload_noop_of_not_loaded env s0 hinit.1,
    unload_fst_of_inv env _ hrun⟩

/-- Witness for C8 at a concrete handle and call sequence. -/
theorem c8_witness :
    LoadInv (runOps envT [Op.reloadOp, Op.unloadOp, Op.readOp] hSentinel) ∧
    MultiIndexCache.unload envT hSentinel = (none, hSentinel) ∧
    (MultiIndexCache.unload envT
      (runOps envT [Op.reloadOp, Op.unloadOp, Op.readOp] hSentinel)).1 = none :=
  c8_load_state_invariant envT [some "a", some "a"] (-1) 0 hSentinel rfl
    [Op.reloadOp, Op.unloadOp, Op.readOp]

/-- C9: `writeCache` on an empty registry raises (the maximum filename length
is taken over an empty collection); and on a registry of constructor-valid
handles it can only succeed when there is at least one handle, each holding at
least one filename. -/
theorem c9_writeCache_nonempty (hs : List MultiIndexCache) (c : CacheFile)
    (hvalid : ∀ h ∈ hs, 2 ≤ h.filenameList.length)
    (hw : writeCache hs = .ok c) :
    writeCache [] = .error .emptyMax ∧
    hs ≠ [] ∧ ∀ h ∈ hs, h.filenameList ≠ [] := by
  refine ⟨rfl, ?_, ?_⟩
  · rintro rfl
    simp [writeCache, allFilenames] at hw
  · intro h hmem hnil
    have h2 := hvalid h hmem
    rw [hnil] at h2
    simp at h2

/-- Witness for C9 at a concrete one-handle registry. -/
theorem c9_witness :
    writeCache [] = .error .emptyMax ∧
    [hSentinel] ≠ [] ∧ ∀ h ∈ [hSentinel], h.filenameList ≠ [] :=
  c9_writeCache_nonempty [hSentinel]
    { first := [(0, -1, 0)], second := [(0, "a"), (0, "a")] } (by decide) rfl

/-! Further fixtures: a one-handle cache file and configurations declaring
various filename sets. -/

/-- A cache file declaring one handle with the single filename `a` twice. -/
def cacheM : CacheFile :=
  { first := [(0, 0, 0)], second := [(0, "a"), (0, "a")] }

/-- A configuration declaring filenames `a` and `b` as single-index files. -/
def cfgM : AstrometryNetDataConfig :=
  { indexFiles := ["a", "b"], multiIndexFiles := [], allowCache := true }

/-- A configuration declaring the set `a, b` with duplicates, a different
order and a different multi-index grouping than `cfgM`. -/
def cfgM2 : AstrometryNetDataConfig :=
  { indexFiles := ["b", "b"], multiIndexFiles := [[some "a", some "b"]],
    allowCache := false }

/-- A configuration with one single-index file and one multi-index group. -/
def cfgW : AstrometryNetDataConfig :=
  { indexFiles := ["a"], multiIndexFiles := [[some "b", some "c"]],
    allowCache := false }

/-- C2: whenever the set of filenames stored in a cache file differs from the
set of filenames declared by the configuration, constructing the registry
from that cache fails — it never returns a registry (partial or otherwise). -/
theorem c2_cache_consistency_enforced (cache : CacheFile)
    (cfg : AstrometryNetDataConfig)
    (hne : (cache.second.map (fun q => some q.2)).toFinset ≠
      (declaredFiles cfg).toFinset) :
    ∀ hs, initFromCache cache cfg ≠ .ok hs := by
  intro hs h
  unfold initFromCache at h
  split at h
  · exact Except.noConfusion h
  · split at h <;> try split at h
    all_goals first
      | exact Except.noConfusion h
      | exact hne (by assumption)

/-- Witness for C2: a cache covering only `a` against a configuration
declaring `a` and `b` is rejected. -/
theorem c2_witness : initFromCache cacheM cfgM ≠ .ok [] :=
  c2_cache_consistency_enforced cacheM cfgM (by decide) []

/-- C10: the consistency check sees the configuration only through the set of
its declared filenames; duplicates, ordering and multi-index grouping are
invisible — two configurations declaring the same set produce identical
construction results against the same cache file. -/
theorem c10_consistency_is_set_based (cache : CacheFile)
    (c1 c2 : AstrometryNetDataConfig)
    (h : (declaredFiles c1).toFinset = (declaredFiles c2).toFinset) :
    initFromCache cache c1 = initFromCache cache c2 := by
  unfold initFromCache
  rw [h]

/-- Witness for C10: `cfgM` and `cfgM2` declare the same set with different
duplicates, order and grouping, and are treated identically. -/
theorem c10_witness : initFromCache cacheM cfgM = initFromCache cacheM cfgM2 :=
  c10_consistency_is_set_based cacheM cfgM cfgM2 (by decide)

/-- The reload loop of `generateCache` preserves the invariant elementwise,
also when it aborts at a failing handle. -/
theorem reloadAll_preserves_inv (env : Env) :
    ∀ hs : List MultiIndexCache, (∀ h ∈ hs, LoadInv h) →
      ∀ h2 ∈ (reloadAll env hs).2, LoadInv h2 := by
  intro hs
  induction hs with
  | nil =>
    intro _ h2 hmem
    simp [reloadAll] at hmem
  | cons h t ih =>
    intro hinv h2 hmem
    unfold reloadAll at hmem
    cases hr : MultiIndexCache.reload env h with
    | mk e hh =>
      rw [hr] at hmem
      have hhh : LoadInv hh := by
        have h3 := reload_preserves_inv env h (hinv h (by simp))
        rw [hr] at h3
        exact h3
      cases e with
      | some err =>
        rcases List.mem_cons.mp hmem with rfl | hm
        · exact hhh
        · exact hinv h2 (List.mem_cons_of_mem h hm)
      | none =>
        rcases List.mem_cons.mp hmem with rfl | hm
        · exact hhh
        · exact ih (fun x hx => hinv x (List.mem_cons_of_mem h hx)) h2 hm

/-- The unload loop of `generateCache`'s `finally` block, on handles
satisfying the invariant, never raises and leaves every handle unloaded. -/
theorem unloadAll_of_inv (env : Env) :
    ∀ hs : List MultiIndexCache, (∀ h ∈ hs, LoadInv h) →
      (unloadAll env hs).1 = none ∧
      ∀ h2 ∈ (unloadAll env hs).2, h2.loaded = false := by
  intro hs
  induction hs with
  | nil =>
    refine fun _ => ⟨rfl, ?_⟩
    intro h2 hmem
    simp [unloadAll] at hmem
  | cons h t ih =>
    intro hinv
    have hh := hinv h (by simp)
    have iht := ih (fun x hx => hinv x (List.mem_cons_of_mem h hx))
    cases hb : h.loaded with
    | false =>
      unfold unloadAll
      rw [unload_noop_of_not_loaded env h hb]
      refine ⟨iht.1, ?_⟩
      intro h2 hmem
      rcases List.mem_cons.mp hmem with rfl | hm
      · exact hb
      · exact iht.2 h2 hm
    | true =>
      obtain ⟨m, hm⟩ := Option.isSome_iff_exists.mp (hh hb)
      unfold unloadAll
      rw [unload_of_loaded_some env h m hb hm]
      refine ⟨iht.1, ?_⟩
      intro h2 hmem
      rcases List.mem_cons.mp hmem with rfl | hm2
      · rfl
      · exact iht.2 h2 hm2

/-- C6: whatever `generateCache`'s try block does — reload failure, cache
write failure or success — the `finally` block unloads every handle of the
registry, so every handle ends with `loaded = false`; and a fully successful
run means the reload loop completed and the cache write succeeded on the
reloaded handles. -/
theorem c6_generateCache_cleanup (env : Env) (hs : List MultiIndexCache)
    (hinv : ∀ h ∈ hs, LoadInv h) :
    (∀ h2 ∈ (generateCacheRun env hs).2, h2.loaded = false) ∧
    ((generateCacheRun env hs).1 = none →
      (reloadAll env hs).1 = none ∧
      ∃ c, writeCache (reloadAll env hs).2 = .ok c) := by
  have hinv1 := reloadAll_preserves_inv env hs hinv
  have hu := unloadAll_of_inv env (reloadAll env hs).2 hinv1
  constructor
  · intro h2 hmem
    exact hu.2 h2 hmem
  · intro hnone
    have htry : tryBlockErr env hs = none := by
      unfold generateCacheRun at hnone
      rw [hu.1] at hnone
      exact hnone
    unfold tryBlockErr at htry
    cases hr : (reloadAll env hs).1 with
    | some e =>
      rw [hr] at htry
      simp at htry
    | none =>
      rw [hr] at htry
      refine ⟨rfl, ?_⟩
      cases hw : writeCache (reloadAll env hs).2 with
      | error e =>
        rw [hw] at htry
        simp at htry
      | ok c => exact ⟨c, rfl⟩

/-- Witness for C6 at a concrete one-handle registry. -/
theorem c6_witness :
    (∀ h2 ∈ (generateCacheRun envT [hSentinel]).2, h2.loaded = false) ∧
    ((generateCacheRun envT [hSentinel]).1 = none →
      (reloadAll envT [hSentinel]).1 = none ∧
      ∃ c, writeCache (reloadAll envT [hSentinel]).2 = .ok c) :=
  c6_generateCache_cleanup envT [hSentinel] (by
    intro h hm
    rw [List.mem_singleton] at hm
    subst hm
    exact loadInv_of_not_loaded rfl)

/-- The `read` path never touches the filename list. -/
theorem read_snd_filenames (env : Env) (s : MultiIndexCache) :
    (MultiIndexCache.read env s).2.filenameList = s.filenameList := by
  unfold MultiIndexCache.read
  repeat' split
  all_goals rfl

/-- The `reload` path never touches the filename list. -/
theorem reload_snd_filenames (env : Env) (s : MultiIndexCache) :
    (MultiIndexCache.reload env s).2.filenameList = s.filenameList := by
  cases hb : s.loaded with
  | true => rw [reload_noop_of_loaded env s hb]
  | false =>
    cases hmi : s.mi with
    | some m => rw [reload_of_some env s m hb hmi]
    | none =>
      rw [reload_of_none env s hb hmi]
      cases hr : MultiIndexCache.read env s with
      | mk e s3 =>
        have h3 : s3.filenameList = s.filenameList := by
          have h4 := read_snd_filenames env s
          rw [hr] at h4
          exact h4
        cases e with
        | some err => exact h3
        | none => exact h3

/-- The constructor, on success, returns exactly the fresh unloaded state. -/
theorem make_ok (l : List (Option String)) (hp ns : Int) (s : MultiIndexCache)
    (h : MultiIndexCache.make l hp ns = .ok s) :
    s = { filenameList := l, healpix := hp, nside := ns, mi := none,
          loaded := false } := by
  unfold MultiIndexCache.make at h
  split at h
  · exact Except.noConfusion h
  · injection h with h1
    exact h1.symm

/-- The healpix/nside-discovery stage keeps the filename list. -/
theorem adoptMeta_filenames (s2 h2 : MultiIndexCache)
    (h : MultiIndexCache.adoptMeta s2 = .ok h2) :
    h2.filenameList = s2.filenameList := by
  unfold MultiIndexCache.adoptMeta at h
  split at h
  · injection h with h3
    rw [← h3]
  all_goals exact Except.noConfusion h

/-- The reload stage of `fromFilenameList` keeps the filename list. -/
theorem afterReload_filenames (env : Env) (s h2 : MultiIndexCache)
    (h : MultiIndexCache.afterReload env s = .ok h2) :
    h2.filenameList = s.filenameList := by
  unfold MultiIndexCache.afterReload at h
  cases hr : MultiIndexCache.reload env s with
  | mk e s2 =>
    rw [hr] at h
    cases e with
    | some err => exact Except.noConfusion h
    | none =>
      have h4 : MultiIndexCache.adoptMeta s2 = .ok h2 := h
      have h5 := reload_snd_filenames env s
      rw [hr] at h5
      rw [adoptMeta_filenames s2 h2 h4, h5]

/-- A handle built by `fromFilenameList` keeps the given filename list. -/
theorem fromFilenameList_filenames (env : Env) (l : List (Option String))
    (h2 : MultiIndexCache)
    (h : MultiIndexCache.fromFilenameList env l = .ok h2) :
    h2.filenameList = l := by
  unfold MultiIndexCache.fromFilenameList at h
  cases hmk : MultiIndexCache.make l 0 0 with
  | error e =>
    rw [hmk] at h
    exact Except.noConfusion h
  | ok s =>
    rw [hmk] at h
    have h4 : MultiIndexCache.afterReload env s = .ok h2 := h
    rw [afterReload_filenames env s h2 h4, make_ok l 0 0 s hmk]

/-- The handle-construction loop of `_initFromIndexFiles`, on success, yields
one handle per filename list, in order, each keeping its list. -/
theorem buildFromLists_ok (env : Env) :
    ∀ (ls : List (List (Option String))) (hs : List MultiIndexCache),
      buildFromLists env ls = .ok hs →
      hs.length = ls.length ∧
      ∀ (i : Nat) (hi : i < ls.length) (hi2 : i < hs.length),
        (hs.get ⟨i, hi2⟩).filenameList = ls.get ⟨i, hi⟩ := by
  intro ls
  induction ls with
  | nil =>
    intro hs h
    injection h with h1
    subst h1
    exact ⟨rfl, fun i hi => absurd hi (by simp)⟩
  | cons l t ih =>
    intro hs h
    unfold buildFromLists at h
    split at h
    · exact Except.noConfusion h
    · exact Except.noConfusion h
    · rename_i hd tl hf hb
      injection h with h1
      subst h1
      have iht := ih tl hb
      refine ⟨by simp [iht.1], ?_⟩
      intro i hi hi2
      cases i with
      | zero => exact fromFilenameList_filenames env l hd hf
      | succ n =>
        exact iht.2 n (by rw [List.length_cons] at hi; omega)
          (by rw [List.length_cons] at hi2; omega)

/-- C7: a successful `_initFromIndexFiles` yields one handle per single-index
filename `f` — with filename list `[f, f]`, the filename duplicated as
primary and sole part — followed by one handle per multi-index group keeping
that group's list, in the configuration's declared order. -/
theorem c7_fromIndexFiles_shape (env : Env) (cfg : AstrometryNetDataConfig)
    (hs : List MultiIndexCache) (h : initFromIndexFiles env cfg = .ok hs) :
    hs.length = cfg.indexFiles.length + cfg.multiIndexFiles.length ∧
    (∀ (i : Nat) (hi : i < cfg.indexFiles.length) (hi2 : i < hs.length),
      (hs.get ⟨i, hi2⟩).filenameList =
        [some (cfg.indexFiles.get ⟨i, hi⟩), some (cfg.indexFiles.get ⟨i, hi⟩)]) ∧
    (∀ (j : Nat) (hj : j < cfg.multiIndexFiles.length)
        (hj2 : cfg.indexFiles.length + j < hs.length),
      (hs.get ⟨cfg.indexFiles.length + j, hj2⟩).filenameList =
        cfg.multiIndexFiles.get ⟨j, hj⟩) := by
  unfold initFromIndexFiles at h
  have hb := buildFromLists_ok env _ hs h
  refine ⟨by simpa using hb.1, ?_, ?_⟩
  · intro i hi hi2
    have hlt : i < (cfg.indexFiles.map (fun f => [some f, some f]) ++
        cfg.multiIndexFiles).length := by
      simp
      omega
    rw [hb.2 i hlt hi2]
    simp [List.get_eq_getElem, List.getElem_append_left, List.getElem_map,
      hi]
  · intro j hj hj2
    have hlt : cfg.indexFiles.length + j <
        (cfg.indexFiles.map (fun f => [some f, some f]) ++
          cfg.multiIndexFiles).length := by
      simp
      omega
    rw [hb.2 (cfg.indexFiles.length + j) hlt hj2]
    rw [List.get_eq_getElem, List.get_eq_getElem]
    rw [List.getElem_append_right (by simp)]
    simp

/-! Round-trip development: reconstructing a registry from its own written
cache tables. -/

/-- The handle a cache reconstruction produces for a stored handle: same
filename list, healpix and nside, starting unloaded with a null native
structure. -/
def resetHandle (h : MultiIndexCache) : MultiIndexCache :=
  { filenameList := h.filenameList, healpix := h.healpix, nside := h.nside,
    mi := none, loaded := false }

/-- Every row of a handle's filename-table block carries that handle's id. -/
theorem rowsOf_fst (j : Nat) (h : MultiIndexCache) :
    ∀ r ∈ rowsOf j h, r.1 = j := by
  intro r hr
  unfold rowsOf at hr
  obtain ⟨ofn, hofn, hmap⟩ := List.mem_filterMap.mp hr
  cases ofn with
  | none => simp at hmap
  | some fn =>
    simp only [Option.map_some'] at hmap
    injection hmap with h2
    rw [← h2]

/-- Filtering a handle's own block by its id keeps every row. -/
theorem filter_rowsOf_self (j : Nat) (h : MultiIndexCache) :
    (rowsOf j h).filter (fun q => q.1 == j) = rowsOf j h :=
  List.filter_eq_self.mpr (fun r hr => by simp [rowsOf_fst j h r hr])

/-- Ids in the filename table lie in the id range of the stored handles. -/
theorem secondRows_fst_bound :
    ∀ (hs : List MultiIndexCache) (j0 : Nat) (r : Nat × String),
      r ∈ secondRows j0 hs → j0 ≤ r.1 ∧ r.1 < j0 + hs.length := by
  intro hs
  induction hs with
  | nil =>
    intro j0 r hr
    simp [secondRows] at hr
  | cons h t ih =>
    intro j0 r hr
    unfold secondRows at hr
    rcases List.mem_append.mp hr with hr1 | hr2
    · have h1 := rowsOf_fst j0 h r hr1
      rw [List.length_cons]
      omega
    · have := ih (j0 + 1) r hr2
      rw [List.length_cons]
      omega

/-- Every id in the handle-table id range occurs in the handle table. -/
theorem firstRows_fst_mem :
    ∀ (hs : List MultiIndexCache) (j0 k : Nat), j0 ≤ k → k < j0 + hs.length →
      k ∈ (firstRows j0 hs).map (fun r => r.1) := by
  intro hs
  induction hs with
  | nil =>
    intro j0 k h1 h2
    rw [List.length_nil] at h2
    exact absurd h2 (by omega)
  | cons h t ih =>
    intro j0 k h1 h2
    unfold firstRows
    rcases Nat.eq_or_lt_of_le h1 with heq | hlt
    · subst heq
      simp
    · simp only [List.map_cons, List.mem_cons]
      right
      exact ih (j0 + 1) k hlt (by rw [List.length_cons] at h2; omega)

/-- The join dict of `_initFromCache` never raises KeyError on a cache
written by `writeCache`: every filename-table id occurs in the handle
table. -/
theorem secondRows_ids_covered (hs : List MultiIndexCache) :
    ¬ ∃ q ∈ secondRows 0 hs, q.1 ∉ (firstRows 0 hs).map (fun r => r.1) := by
  rintro ⟨q, hq, hnot⟩
  have hb := secondRows_fst_bound hs 0 q hq
  exact hnot (firstRows_fst_mem hs 0 q.1 (by omega) (by omega))

/-- Reading a block's filenames back, when every declared entry is a string,
recovers the declared filename list in order. -/
theorem filterMap_pair_map_some (j : Nat) :
    ∀ (l : List (Option String)), (∀ ofn ∈ l, ofn.isSome = true) →
      (l.filterMap (fun ofn => ofn.map (fun fn => (j, fn)))).map
        (fun q => some q.2) = l := by
  intro l
  induction l with
  | nil => intro _; rfl
  | cons a t ih =>
    intro hall
    cases a with
    | none => exact absurd (hall none (by simp)) (by simp)
    | some fn =>
      rw [List.filterMap_cons_some
        (rfl : Option.map (fun fn => (j, fn)) (some fn) = some (j, fn))]
      rw [List.map_cons, ih (fun x hx => hall x (List.mem_cons_of_mem _ hx))]

/-- The filename column of the whole filename table, read back as options, is
the flattened declared filename collection of the registry. -/
theorem secondRows_map_some :
    ∀ (hs : List MultiIndexCache) (j0 : Nat),
      (∀ h ∈ hs, ∀ ofn ∈ h.filenameList, ofn.isSome = true) →
      (secondRows j0 hs).map (fun q => some q.2) = allFilenames hs := by
  intro hs
  induction hs with
  | nil => intro j0 _; rfl
  | cons h t ih =>
    intro j0 hall
    have h1 := filterMap_pair_map_some j0 h.filenameList (hall h (by simp))
    have h2 := ih (j0 + 1) (fun x hx => hall x (List.mem_cons_of_mem _ hx))
    unfold secondRows
    rw [List.map_append]
    unfold rowsOf
    rw [h1, h2]
    rfl

/-- The filename table decomposes into per-handle blocks: filtering by handle
`k`'s id recovers exactly handle `k`'s block, for each stored handle in
turn. -/
def Blocks (full : List (Nat × String)) : Nat → List MultiIndexCache → Prop
  | _, [] => True
  | j0, h :: t =>
    full.filter (fun q => q.1 == j0) = rowsOf j0 h ∧ Blocks full (j0 + 1) t

/-- A filename table prefixed by rows with smaller ids still decomposes into
the blocks of the handles it stores. -/
theorem blocks_of_pre :
    ∀ (hs : List MultiIndexCache) (j0 : Nat) (pre : List (Nat × String)),
      (∀ r ∈ pre, r.1 < j0) → Blocks (pre ++ secondRows j0 hs) j0 hs := by
  intro hs
  induction hs with
  | nil => intro j0 pre hpre; trivial
  | cons h t ih =>
    intro j0 pre hpre
    constructor
    · unfold secondRows
      rw [← List.append_assoc, List.filter_append, List.filter_append]
      have hp : pre.filter (fun q => q.1 == j0) = [] := by
        rw [List.filter_eq_nil_iff]
        intro r hr
        have := hpre r hr
        simp
        omega
      have ht2 : (secondRows (j0 + 1) t).filter (fun q => q.1 == j0) = [] := by
        rw [List.filter_eq_nil_iff]
        intro r hr
        have := secondRows_fst_bound t (j0 + 1) r hr
        simp
        omega
      rw [hp, filter_rowsOf_self, ht2]
      simp
    · have hpre2 : ∀ r ∈ pre ++ rowsOf j0 h, r.1 < j0 + 1 := by
        intro r hr
        rcases List.mem_append.mp hr with hr1 | hr2
        · have := hpre r hr1
          omega
        · have := rowsOf_fst j0 h r hr2
          omega
      have := ih (j0 + 1) (pre ++ rowsOf j0 h) hpre2
      rw [List.append_assoc] at this
      exact this

/-- The filename table written by `writeCache` decomposes into its handles'
blocks. -/
theorem blocks_secondRows (hs : List MultiIndexCache) :
    Blocks (secondRows 0 hs) 0 hs := by
  have := blocks_of_pre hs 0 [] (by simp)
  simpa using this

/-- Reconstructing handles from the handle table and a filename table that
decomposes into the handles' blocks yields exactly the stored handles, reset
to their fresh unloaded state, in order. -/
theorem buildHandles_of_blocks :
    ∀ (hs : List MultiIndexCache) (j0 : Nat) (full : List (Nat × String)),
      Blocks full j0 hs →
      (∀ h ∈ hs, 2 ≤ h.filenameList.length ∧
        ∀ ofn ∈ h.filenameList, ofn.isSome = true) →
      buildHandles full (firstRows j0 hs) = .ok (hs.map resetHandle) := by
  intro hs
  induction hs with
  | nil => intro j0 full _ _; rfl
  | cons h t ih =>
    intro j0 full hb hv
    obtain ⟨hb1, hb2⟩ := hb
    have hvh := hv h (by simp)
    have hmk : MultiIndexCache.make
        ((full.filter (fun q => q.1 == j0)).map (fun q => some q.2))
        h.healpix h.nside = .ok (resetHandle h) := by
      rw [hb1]
      unfold rowsOf
      rw [filterMap_pair_map_some j0 h.filenameList hvh.2]
      unfold MultiIndexCache.make
      rw [if_neg (by have := hvh.1; omega)]
      rfl
    have iht := ih (j0 + 1) full hb2 (fun x hx => hv x (List.mem_cons_of_mem _ hx))
    unfold firstRows buildHandles
    rw [hmk, iht]
    rfl

/-- Under the hypotheses of the round trip, `writeCache` succeeds and writes
exactly the two tables. -/
theorem writeCache_ok (hs : List MultiIndexCache) (hne : hs ≠ [])
    (hv : ∀ h ∈ hs, 2 ≤ h.filenameList.length ∧
      ∀ ofn ∈ h.filenameList, ofn.isSome = true) :
    writeCache hs = .ok { first := firstRows 0 hs, second := secondRows 0 hs } := by
  have h1 : allFilenames hs ≠ [] := by
    intro hcon
    cases hs with
    | nil => exact hne rfl
    | cons h t =>
      have hlen := (hv h (by simp)).1
      have happ : h.filenameList ++ allFilenames t = [] := hcon
      have := (List.append_eq_nil.mp happ).1
      rw [this] at hlen
      simp at hlen
  have h2 : (allFilenames hs).any (fun ofn => ofn.isNone) = false := by
    rw [List.any_eq_false]
    intro ofn hofn
    obtain ⟨h, hh, hmem⟩ := List.mem_flatMap.mp hofn
    have := (hv h hh).2 ofn hmem
    cases ofn with
    | none => simp at this
    | some v => simp
  unfold writeCache
  rw [if_neg h1, if_neg (by simp [h2])]

/-- C1: for a registry of constructor-valid handles with all filenames known
(strings), under the consistency the registry has with its configuration,
`writeCache` followed by cache reconstruction succeeds and yields exactly as
many handles as the original, with identical healpix, nside and filename
lists, in the same registry order. -/
theorem c1_cache_round_trip (hs : List MultiIndexCache)
    (cfg : AstrometryNetDataConfig) (hne : hs ≠ [])
    (hv : ∀ h ∈ hs, 2 ≤ h.filenameList.length ∧
      ∀ ofn ∈ h.filenameList, ofn.isSome = true)
    (hcons : (allFilenames hs).toFinset = (declaredFiles cfg).toFinset) :
    ∃ c hs2, writeCache hs = .ok c ∧ initFromCache c cfg = .ok hs2 ∧
      hs2.length = hs.length ∧
      hs2.map (fun h => (h.healpix, h.nside, h.filenameList)) =
        hs.map (fun h => (h.healpix, h.nside, h.filenameList)) := by
  refine ⟨_, hs.map resetHandle, writeCache_ok hs hne hv, ?_, by simp, ?_⟩
  · unfold initFromCache
    dsimp only
    rw [if_neg (secondRows_ids_covered hs)]
    rw [buildHandles_of_blocks hs 0 (secondRows 0 hs) (blocks_secondRows hs) hv]
    have hset : ((secondRows 0 hs).map (fun q => some q.2)).toFinset =
        (declaredFiles cfg).toFinset := by
      rw [secondRows_map_some hs 0 (fun h hh => (hv h hh).2)]
      exact hcons
    simp [hset]
  · rw [List.map_map]
    rfl

/-- Witness for C1 at a concrete one-handle registry and its matching
configuration. -/
theorem c1_witness :
    ∃ c hs2, writeCache [hSentinel] = .ok c ∧
      initFromCache c { indexFiles := ["a"], multiIndexFiles := [],
                        allowCache := true } = .ok hs2 ∧
      hs2.length = [hSentinel].length ∧
      hs2.map (fun h => (h.healpix, h.nside, h.filenameList)) =
        [hSentinel].map (fun h => (h.healpix, h.nside, h.filenameList)) :=
  c1_cache_round_trip [hSentinel]
    { indexFiles := ["a"], multiIndexFiles := [], allowCache := true }
    (by decide) (by decide) (by decide)

/-- The handles produced by `initFromIndexFiles envT cfgW`. -/
def hsW : List MultiIndexCache :=
  [{ filenameList := [some "a", some "a"], healpix := 5, nside := 4,
     mi := some { parts := [{ indexid := 1, healpix := 5, hpnside := 4,
                              nstars := 10, nquads := 20 }] },
     loaded := true },
   { filenameList := [some "b", some "c"], healpix := 5, nside := 4,
     mi := some { parts := [{ indexid := 1, healpix := 5, hpnside := 4,
                              nstars := 10, nquads := 20 }] },
     loaded := true }]

/-- Witness for C7 at the concrete configuration `cfgW` under `envT`. -/
theorem c7_witness :
    hsW.length = cfgW.indexFiles.length + cfgW.multiIndexFiles.length ∧
    (hsW.get ⟨0, by decide⟩).filenameList =
      [some (cfgW.indexFiles.get ⟨0, by decide⟩),
       some (cfgW.indexFiles.get ⟨0, by decide⟩)] ∧
    (hsW.get ⟨cfgW.indexFiles.length + 0, by decide⟩).filenameList =
      cfgW.multiIndexFiles.get ⟨0, by decide⟩ :=
  ⟨(c7_fromIndexFiles_shape envT cfgW hsW rfl).1,
   (c7_fromIndexFiles_shape envT cfgW hsW rfl).2.1 0 (by decide) (by decide),
   (c7_fromIndexFiles_shape envT cfgW hsW rfl).2.2 0 (by decide) (by decide)⟩

end AstrometryNet
